import Mathlib

/-!
Verification of the Gemini multi-agent discussion simulator

A shallow embedding of the core modules of the repository
(`src/discussion_system.py`, `src/agent_manager.py`, `src/agent_classes.py`)
together with theorems settling the frozen claims about them.

External effects are modelled explicitly:
* each call to the generative-model endpoint is an entry of an `Env.model`
  oracle, indexed by a call counter and fed the exact instruction payload the
  code builds; its outcome is `Except String String` (failure detail, or the
  raw response text);
* `time.time()` reads come from an `Env.clock` oracle indexed by an event
  counter (the concrete values never matter to the claims);
* `random.sample(pool, k)` is modelled by an explicit choice `pick` of `k`
  positions, with injectivity and boundedness as hypotheses where needed;
* reading the agents-configuration file yields a `ReadResult`
  (missing file, malformed JSON, or a parsed document).

Python strings are sequences of Unicode code points, which is exactly
`String` in Lean (whose model is `List Char`); `len` and slicing are the
code-point operations `pyLen` and `pySlice` below.
-/

namespace DiscussionSim

/-- Python `len(s)`: the number of code points of `s`. -/
def pyLen (s : String) : Nat := s.data.length

/-- Python `s[:n]` for `n ≥ 0`: the first `n` code points of `s`. -/
def pySlice (s : String) (n : Nat) : String := ⟨s.data.take n⟩

/-- Model of `agent_classes.Agent`: a discussion agent with role and personality. -/
structure Agent where
  name : String
  role : String
  personality : String
deriving DecidableEq, Repr

/-- Model of `agent_classes.Message`: a discussion message from an agent.
`timestamp` holds the `time.time()` reading, modelled abstractly as a
natural number supplied by the clock oracle. -/
structure Message where
  agent_name : String
  content : String
  timestamp : Nat
deriving DecidableEq, Repr

/-- Model of `discussion_system.DiscussionAgent`: an `Agent` plus a model name. -/
structure DiscussionAgent extends Agent where
  model_name : String := "gemini-2.0-flash-lite"
deriving DecidableEq, Repr

/-- The mutable state of a `discussion_system.DiscussionSystem` instance.
The character limits are character counts (`agent_max_chars`,
`summary_max_chars`), modelled as `Nat`. -/
structure DiscussionSystem where
  agents : List DiscussionAgent
  messages : List Message
  discussion_topic : String
  agent_max_chars : Nat
  summary_max_chars : Nat
deriving Repr

/-- Model of `DiscussionSystem.__init__`: empty agent list, empty log, empty topic,
default limits 200 and 1500. -/
def DiscussionSystem.init : DiscussionSystem :=
  { agents := []
    messages := []
    discussion_topic := ""
    agent_max_chars := 200
    summary_max_chars := 1500 }

/-- Model of `DiscussionSystem.add_agent`: append a new `DiscussionAgent` built from
name, role and personality (with the default model name). -/
def add_agent (sys : DiscussionSystem) (name role personality : String) :
    DiscussionSystem :=
  { sys with agents := sys.agents ++ [{ name := name, role := role, personality := personality }] }

/-- Model of `DiscussionSystem.set_topic`. -/
def set_topic (sys : DiscussionSystem) (topic : String) : DiscussionSystem :=
  { sys with discussion_topic := topic }

/-- Model of `DiscussionSystem.set_limits`. -/
def set_limits (sys : DiscussionSystem) (agent_max_chars summary_max_chars : Nat) :
    DiscussionSystem :=
  { sys with agent_max_chars := agent_max_chars, summary_max_chars := summary_max_chars }

/-- The external world, as the code observes it: `model n payload` is the
outcome of the `n`-th generation call when handed `payload` (raw response
text, or the failure detail `str(e)`), and `clock n` is the `n`-th
`time.time()` reading. -/
structure Env where
  model : Nat → String → Except String String
  clock : Nat → Nat

/-- The instruction payload built inside
`DiscussionSystem._generate_response` (the `system_prompt` f-string). -/
def system_prompt (sys : DiscussionSystem) (agent : DiscussionAgent)
    (conversation_history : String) : String :=
  "\nあなたは" ++ agent.name ++ "として、" ++ agent.role ++ "の立場で発言してください。\n" ++
  "あなたの性格・特徴: " ++ agent.personality ++ "\n\n" ++
  "議論テーマ: " ++ sys.discussion_topic ++ "\n\n" ++
  "以下の会話履歴を踏まえて、あなたの視点から意見を述べてください。\n" ++
  "- " ++ toString sys.agent_max_chars ++ "文字以内で簡潔に回答してください\n" ++
  "- キャラクターを保って発言してください\n" ++
  "- 建設的で議論に価値を加える内容にしてください\n" ++
  "- 必ず日本語で回答してください\n\n" ++
  "会話履歴:\n" ++ conversation_history ++ "\n\n" ++
  agent.name ++ "としての回答:\n"

/-- Model of `DiscussionSystem._generate_response`: build the prompt, invoke the model
(`call` is the outcome of this particular external invocation), and on
success strip and hard-truncate the text to `agent_max_chars` appending
`"..."`; on any failure return the inline error value. -/
def generate_response (sys : DiscussionSystem) (agent : DiscussionAgent)
    (conversation_history : String) (call : String → Except String String) : String :=
  match call (system_prompt sys agent conversation_history) with
  | .ok r =>
      let text := r.trim
      if pyLen text > sys.agent_max_chars then
        pySlice text sys.agent_max_chars ++ "..."
      else
        text
  | .error e => "[Error from " ++ agent.name ++ ": " ++ e ++ "]"

/-- Model of `DiscussionSystem._format_conversation_history`: `"No previous messages."`
on an empty log, otherwise the last 10 messages (`self.messages[-10:]`)
rendered as `"<author>: <content>"` lines joined by newlines, newest last. -/
def format_conversation_history (messages : List Message) : String :=
  if messages.isEmpty then "No previous messages."
  else
    String.intercalate "\n"
      ((messages.drop (messages.length - 10)).map
        (fun msg => msg.agent_name ++ ": " ++ msg.content))

/-- The loop `for agent in self.agents: tasks.append(self._generate_response
(agent, conversation_history))`: the eventual value of each per-agent task,
in agent-list order; the `k`-th task is the `(n+k)`-th external call. -/
def genResponses (sys : DiscussionSystem) (conversation_history : String)
    (env : Env) : Nat → List DiscussionAgent → List String
  | _, [] => []
  | n, agent :: rest =>
      generate_response sys agent conversation_history (env.model n) ::
        genResponses sys conversation_history env (n + 1) rest

/-- The loop `for (agent, _), response in zip(tasks, responses): ...
self.messages.append(message)`: one `Message` per (agent, response) pair,
timestamped by consecutive clock reads. -/
def mkMessages (clock : Nat → Nat) : Nat → List (DiscussionAgent × String) → List Message
  | _, [] => []
  | n, (agent, response) :: rest =>
      { agent_name := agent.name, content := response, timestamp := clock n } ::
        mkMessages clock (n + 1) rest

/-- The block of messages one round of `conduct_discussion` appends to the
log, starting from state `sys` with event counter `n`. The conversation
history is computed once, before any append made by the round. -/
def roundMessages (sys : DiscussionSystem) (env : Env) (n : Nat) : List Message :=
  mkMessages env.clock (n + sys.agents.length)
    (sys.agents.zip
      (genResponses sys (format_conversation_history sys.messages) env n sys.agents))

/-- One iteration of the `for round_num in range(rounds)` loop: fan out the
generation tasks over the current history snapshot, join them, and append
the replies in agent-list order. Returns the new state and event counter. -/
def roundStep (sys : DiscussionSystem) (env : Env) (n : Nat) : DiscussionSystem × Nat :=
  ({ sys with messages := sys.messages ++ roundMessages sys env n },
    n + sys.agents.length + sys.agents.length)

/-- The round loop of `conduct_discussion`, executing `rounds` rounds. -/
def runRounds (env : Env) : DiscussionSystem → Nat → Nat → DiscussionSystem × Nat
  | sys, n, 0 => (sys, n)
  | sys, n, rounds + 1 =>
      let p := roundStep sys env n
      runRounds env p.1 p.2 rounds

/-- Model of `DiscussionSystem.conduct_discussion`: append the System-authored topic
message, then run the rounds. Returns the final state (whose `.messages` is
the return value of the method) and event counter. -/
def conduct_discussion (sys : DiscussionSystem) (rounds : Nat) (env : Env)
    (n : Nat) : DiscussionSystem × Nat :=
  let initial_message : Message :=
    { agent_name := "System"
      content := "Discussion topic: " ++ sys.discussion_topic
      timestamp := env.clock n }
  runRounds env { sys with messages := sys.messages ++ [initial_message] } (n + 1) rounds

/-- The transcript lines built at the top of
`DiscussionSystem.summarize_discussion`: every non-System message rendered
as `"<author>: <content>"`, in log order. -/
def summaryTranscript (messages : List Message) : List String :=
  (messages.filter (fun msg => msg.agent_name != "System")).map
    (fun msg => msg.agent_name ++ ": " ++ msg.content)

/-- The `summary_prompt` f-string of `DiscussionSystem.summarize_discussion`. -/
def summary_prompt (sys : DiscussionSystem) : String :=
  "\n以下の「" ++ sys.discussion_topic ++ "」についての議論を日本語で要約してください。\n\n" ++
  "以下の項目を含む包括的で詳細な要約を提供してください：\n" ++
  "1. 議論された主なポイント\n" ++
  "2. 提示された異なる観点\n" ++
  "3. 合意点と相違点\n" ++
  "4. 重要な洞察と結論\n" ++
  "5. 提案された次のステップや行動（もしあれば）\n\n" ++
  "議論内容：\n" ++
  String.intercalate "\n" (summaryTranscript sys.messages) ++ "\n\n" ++
  "詳細な要約：\n"

/-- Model of `DiscussionSystem.summarize_discussion`: one generation call over the
whole non-System transcript; on success return the stripped text unchanged
(no truncation), on failure return the inline error value. -/
def summarize_discussion (sys : DiscussionSystem)
    (call : String → Except String String) : String :=
  match call (summary_prompt sys) with
  | .ok r => r.trim
  | .error e => "Error generating summary: " ++ e

/-! Model of `asyncio.gather`

`asyncio.gather(*tasks)` runs the tasks concurrently and returns their
results in *argument* order, whatever order they complete in.  We model the
mechanism: a slot table indexed by task position, filled as tasks complete in
an arbitrary completion order `order`, then read out in position order. -/

/-- The slot table after the tasks listed in `order` (by position) have
completed: slot `i` holds the eventual value `ts[i]` of task `i` once `i` has
completed. -/
def gatherSlots (ts : List String) (order : List Nat) : Nat → Option String :=
  order.foldl (fun slots i => fun j => if j = i then ts[i]? else slots j)
    (fun _ => none)

/-- The value `asyncio.gather` hands back: the slot table read out in task
order once every task has completed. -/
def gatherResults (ts : List String) (order : List Nat) : List String :=
  (List.range ts.length).map (fun j => (gatherSlots ts order j).getD "")

/-- The messages one round appends when the replies of the round are collected
through the gather mechanism with completion order `order`. -/
def roundMessagesGathered (sys : DiscussionSystem) (env : Env) (n : Nat)
    (order : List Nat) : List Message :=
  mkMessages env.clock (n + sys.agents.length)
    (sys.agents.zip
      (gatherResults
        (genResponses sys (format_conversation_history sys.messages) env n sys.agents)
        order))

/-! Model of `agent_manager.AgentManager` -/

/-- One persona entry of the agents-configuration JSON document: an object
with the required keys `"name"`, `"role"`, `"personality"`. -/
structure AgentDict where
  name : String
  role : String
  personality : String
deriving DecidableEq, Repr

/-- A parsed agents-configuration document. `categories` is the value of
`data.get("categories", {})`: `none` models an absent `"categories"` key;
the mapping itself is an insertion-ordered dict from category name to a
list of persona entries. -/
structure ConfigDoc where
  categories : Option (List (String × List AgentDict))
deriving Repr

/-- The outcome of reading the configuration file: the file is missing
(`FileNotFoundError`), its contents are not valid JSON
(`json.JSONDecodeError`), or it parses to a document. -/
inductive ReadResult where
  | missing
  | invalid (err : String)
  | parsed (doc : ConfigDoc)
deriving Repr

/-- Model of `AgentManager._load_agents`: return the `"categories"` mapping of the
parsed document, and the empty mapping when the file is missing or
malformed (both handlers only print and return `{}`). -/
def load_agents (r : ReadResult) : List (String × List AgentDict) :=
  match r with
  | .parsed doc => doc.categories.getD []
  | .missing => []
  | .invalid _ => []

/-- The state of an `agent_manager.AgentManager` instance. -/
structure AgentManager where
  config_file : String
  agents_data : List (String × List AgentDict)
deriving Repr

/-- Model of `AgentManager.__init__`: record the config path and load the data,
where `r` is what reading the file yields. -/
def AgentManager.init (config_file : String) (r : ReadResult) : AgentManager :=
  { config_file := config_file, agents_data := load_agents r }

/-- Model of `AgentManager.get_categories`: the keys of the mapping, in stored order. -/
def get_categories (m : AgentManager) : List String :=
  m.agents_data.map Prod.fst

/-- Model of `AgentManager.get_agents_by_category`: `[]` when the category is absent,
otherwise its entries converted to `Agent`s in stored order. -/
def get_agents_by_category (m : AgentManager) (category : String) : List Agent :=
  match m.agents_data.lookup category with
  | none => []
  | some entries =>
      entries.map (fun d => { name := d.name, role := d.role, personality := d.personality })

/-- Model of `AgentManager.get_all_agents`: concatenate the agents of every category, in
category order. -/
def get_all_agents (m : AgentManager) : List Agent :=
  (get_categories m).flatMap (fun category => get_agents_by_category m category)

/-- Model of `random.sample(l, k)` starting at draw index `i`: the `j`-th
draw takes the element at position `pick j` of `l` (out-of-range picks,
which never occur for a real sampler, contribute nothing). -/
def sampleAux (l : List Agent) (pick : Nat → Nat) : Nat → Nat → List Agent
  | _, 0 => []
  | i, k + 1 =>
      match l[pick i]? with
      | some a => a :: sampleAux l pick (i + 1) k
      | none => sampleAux l pick (i + 1) k

/-- Model of `random.sample(l, k)`: the elements at the `k` chosen positions
`pick 0, …, pick (k-1)`; a real sampler chooses distinct in-range
positions, which theorems assume as hypotheses on `pick`. -/
def randomSample (l : List Agent) (k : Nat) (pick : Nat → Nat) : List Agent :=
  sampleAux l pick 0 k

/-- Model of `AgentManager.select_random_agents_from_all`: the whole pool when it has
at most `num_agents` members, otherwise a random sample of `num_agents`. -/
def select_random_agents_from_all (m : AgentManager) (num_agents : Nat)
    (pick : Nat → Nat) : List Agent :=
  let all_agents := get_all_agents m
  if all_agents.length ≤ num_agents then all_agents
  else randomSample all_agents num_agents pick

/-! Basic lemmas about the round machinery -/

/-- The System-authored topic marker that `conduct_discussion` appends on
entry (its `initial_message`). -/
def topicMessage (sys : DiscussionSystem) (env : Env) (n : Nat) : Message :=
  { agent_name := "System"
    content := "Discussion topic: " ++ sys.discussion_topic
    timestamp := env.clock n }

lemma genResponses_length (sys : DiscussionSystem) (hist : String) (env : Env) :
    ∀ (agents : List DiscussionAgent) (n : Nat),
      (genResponses sys hist env n agents).length = agents.length := by
  intro agents
  induction agents with
  | nil => intro n; rfl
  | cons a rest ih => intro n; simp [genResponses, ih]

lemma genResponses_getElem? (sys : DiscussionSystem) (hist : String) (env : Env) :
    ∀ (agents : List DiscussionAgent) (n j : Nat),
      (genResponses sys hist env n agents)[j]?
        = (agents[j]?).map
            (fun a => generate_response sys a hist (env.model (n + j))) := by
  intro agents
  induction agents with
  | nil => intro n j; simp [genResponses]
  | cons a rest ih =>
      intro n j
      cases j with
      | zero => simp [genResponses]
      | succ j =>
          simp only [genResponses, List.getElem?_cons_succ]
          rw [ih (n + 1) j]
          have harith : n + 1 + j = n + (j + 1) := by omega
          rw [harith]

lemma mkMessages_length (clock : Nat → Nat) :
    ∀ (pairs : List (DiscussionAgent × String)) (n : Nat),
      (mkMessages clock n pairs).length = pairs.length := by
  intro pairs
  induction pairs with
  | nil => intro n; rfl
  | cons p rest ih => intro n; simp [mkMessages, ih]

lemma mkMessages_getElem? (clock : Nat → Nat) :
    ∀ (pairs : List (DiscussionAgent × String)) (n j : Nat),
      (mkMessages clock n pairs)[j]?
        = (pairs[j]?).map
            (fun p => ({ agent_name := p.1.name, content := p.2,
                         timestamp := clock (n + j) } : Message)) := by
  intro pairs
  induction pairs with
  | nil => intro n j; simp [mkMessages]
  | cons p rest ih =>
      intro n j
      cases j with
      | zero => simp [mkMessages]
      | succ j =>
          simp only [mkMessages, List.getElem?_cons_succ]
          rw [ih (n + 1) j]
          have harith : n + 1 + j = n + (j + 1) := by omega
          rw [harith]

lemma getElem?_zip_eq (l₁ : List DiscussionAgent) (l₂ : List String) :
    ∀ (j : Nat),
      (l₁.zip l₂)[j]? = (l₁[j]?).bind (fun a => (l₂[j]?).map (fun b => (a, b))) := by
  induction l₁ generalizing l₂ with
  | nil => intro j; simp
  | cons a t ih =>
      intro j
      cases l₂ with
      | nil => cases j <;> simp
      | cons b t₂ =>
          cases j with
          | zero => simp
          | succ j => simpa using ih t₂ j

lemma zip_fst_getElem? (l₁ : List DiscussionAgent) (l₂ : List String)
    (h : l₂.length = l₁.length) (j : Nat) :
    ((l₁.zip l₂)[j]?).map Prod.fst = l₁[j]? := by
  rw [getElem?_zip_eq]
  by_cases hj : j < l₁.length
  · rw [List.getElem?_eq_getElem hj, List.getElem?_eq_getElem (h ▸ hj)]
    simp
  · rw [List.getElem?_eq_none (by omega), List.getElem?_eq_none (by omega)]
    simp

lemma roundMessages_length (sys : DiscussionSystem) (env : Env) (n : Nat) :
    (roundMessages sys env n).length = sys.agents.length := by
  simp [roundMessages, mkMessages_length, List.length_zip, genResponses_length]

lemma roundMessages_author (sys : DiscussionSystem) (env : Env) (n : Nat) (j : Nat) :
    ((roundMessages sys env n)[j]?).map Message.agent_name
      = (sys.agents[j]?).map (fun a => a.name) := by
  rw [roundMessages, mkMessages_getElem?, Option.map_map]
  have hlen : (genResponses sys (format_conversation_history sys.messages) env n
      sys.agents).length = sys.agents.length := genResponses_length ..
  calc ((sys.agents.zip (genResponses sys (format_conversation_history sys.messages)
            env n sys.agents))[j]?).map
          (Message.agent_name ∘ fun p =>
            Message.mk p.1.name p.2 (env.clock (n + sys.agents.length + j)))
      = ((sys.agents.zip (genResponses sys (format_conversation_history sys.messages)
            env n sys.agents))[j]?).map ((fun a => a.name) ∘ Prod.fst) := rfl
    _ = (((sys.agents.zip (genResponses sys (format_conversation_history sys.messages)
            env n sys.agents))[j]?).map Prod.fst).map (fun a => a.name) := by
          rw [Option.map_map]
    _ = (sys.agents[j]?).map (fun a => a.name) := by
          rw [zip_fst_getElem? _ _ hlen]

lemma roundStep_messages (sys : DiscussionSystem) (env : Env) (n : Nat) :
    (roundStep sys env n).1.messages = sys.messages ++ roundMessages sys env n := rfl

lemma roundStep_agents (sys : DiscussionSystem) (env : Env) (n : Nat) :
    (roundStep sys env n).1.agents = sys.agents := rfl

lemma runRounds_spec (env : Env) :
    ∀ (rounds : Nat) (sys : DiscussionSystem) (n : Nat),
      ((runRounds env sys n rounds).1).agents = sys.agents ∧
      ∃ appended : List Message,
        ((runRounds env sys n rounds).1).messages = sys.messages ++ appended ∧
        appended.length = rounds * sys.agents.length := by
  intro rounds
  induction rounds with
  | zero =>
      intro sys n
      exact ⟨rfl, [], by simp [runRounds], by simp⟩
  | succ r ih =>
      intro sys n
      have hstep : runRounds env sys n (r + 1)
          = runRounds env (roundStep sys env n).1 (roundStep sys env n).2 r := rfl
      obtain ⟨hagents, appended, happ, hlen⟩ := ih (roundStep sys env n).1 (roundStep sys env n).2
      refine ⟨by rw [hstep, hagents, roundStep_agents], roundMessages sys env n ++ appended, ?_, ?_⟩
      · rw [hstep, happ, roundStep_messages, List.append_assoc]
      · rw [List.length_append, roundMessages_length, hlen, roundStep_agents,
          Nat.succ_mul, Nat.add_comm]

lemma conduct_discussion_spec (sys : DiscussionSystem) (rounds : Nat) (env : Env)
    (n : Nat) :
    ((conduct_discussion sys rounds env n).1).agents = sys.agents ∧
    ∃ appended : List Message,
      ((conduct_discussion sys rounds env n).1).messages = sys.messages ++ appended ∧
      appended.length = 1 + rounds * sys.agents.length ∧
      appended.head? = some (topicMessage sys env n) := by
  obtain ⟨hagents, appended, happ, hlen⟩ :=
    runRounds_spec env rounds
      { sys with messages := sys.messages ++ [topicMessage sys env n] } (n + 1)
  refine ⟨hagents, topicMessage sys env n :: appended, ?_, ?_, rfl⟩
  · rw [show (conduct_discussion sys rounds env n)
        = runRounds env
            { sys with messages := sys.messages ++ [topicMessage sys env n] } (n + 1) rounds
      from rfl]
    rw [happ]
    simp
  · simp [hlen]
    omega

/-! Lemmas about the gather model -/

lemma gatherSlots_foldl (ts : List String) :
    ∀ (order : List Nat) (slots : Nat → Option String) (j : Nat),
      (order.foldl (fun slots i => fun j' => if j' = i then ts[i]? else slots j') slots) j
        = if j ∈ order then ts[j]? else slots j := by
  intro order
  induction order with
  | nil => intro slots j; simp
  | cons i rest ih =>
      intro slots j
      rw [List.foldl_cons, ih]
      by_cases hjr : j ∈ rest
      · simp [hjr]
      · by_cases hji : j = i
        · subst hji; simp [hjr]
        · simp [hjr, hji]

lemma gatherSlots_eq (ts : List String) (order : List Nat) (j : Nat) :
    gatherSlots ts order j = if j ∈ order then ts[j]? else none :=
  gatherSlots_foldl ts order (fun _ => none) j

lemma range_map_getD (ts : List String) (d : String) :
    (List.range ts.length).map (fun j => ts.getD j d) = ts := by
  induction ts with
  | nil => simp
  | cons x xs ih =>
      rw [List.length_cons, List.range_succ_eq_map, List.map_cons, List.map_map]
      have hcomp : ((fun j => (x :: xs).getD j d) ∘ Nat.succ) = fun j => xs.getD j d := by
        funext j
        simp [Function.comp, List.getD_cons_succ]
      rw [hcomp, ih]
      rfl

lemma gatherResults_perm (ts : List String) (order : List Nat)
    (h : order.Perm (List.range ts.length)) : gatherResults ts order = ts := by
  rw [gatherResults]
  have hmem : ∀ j ∈ List.range ts.length,
      (gatherSlots ts order j).getD "" = ts.getD j "" := by
    intro j hj
    have hjo : j ∈ order := h.mem_iff.mpr hj
    rw [gatherSlots_eq, if_pos hjo, List.getD_eq_getElem?_getD]
  rw [List.map_congr_left hmem, range_map_getD]

/-! Lemmas about the sampling model -/

lemma sampleAux_length (l : List Agent) (pick : Nat → Nat) :
    ∀ (k i : Nat), (∀ j, i ≤ j → j < i + k → pick j < l.length) →
      (sampleAux l pick i k).length = k := by
  intro k
  induction k with
  | zero => intro i _; rfl
  | succ k ih =>
      intro i hb
      have hi : pick i < l.length := hb i le_rfl (by omega)
      rw [sampleAux, List.getElem?_eq_getElem hi]
      simp only [List.length_cons]
      rw [ih (i + 1) (fun j hj1 hj2 => hb j (by omega) (by omega))]

lemma mem_sampleAux (l : List Agent) (pick : Nat → Nat) :
    ∀ (k i : Nat) (a : Agent), a ∈ sampleAux l pick i k →
      ∃ j, i ≤ j ∧ j < i + k ∧ l[pick j]? = some a := by
  intro k
  induction k with
  | zero => intro i a ha; simp [sampleAux] at ha
  | succ k ih =>
      intro i a ha
      rw [sampleAux] at ha
      cases hget : l[pick i]? with
      | none =>
          rw [hget] at ha
          obtain ⟨j, hj1, hj2, hj3⟩ := ih (i + 1) a ha
          exact ⟨j, by omega, by omega, hj3⟩
      | some b =>
          rw [hget] at ha
          rcases List.mem_cons.mp ha with hab | hmem
          · exact ⟨i, le_rfl, by omega, by rw [hget, hab]⟩
          · obtain ⟨j, hj1, hj2, hj3⟩ := ih (i + 1) a hmem
            exact ⟨j, by omega, by omega, hj3⟩

lemma sampleAux_subset (l : List Agent) (pick : Nat → Nat) (k i : Nat) :
    ∀ a ∈ sampleAux l pick i k, a ∈ l := by
  intro a ha
  obtain ⟨j, -, -, hj⟩ := mem_sampleAux l pick k i a ha
  exact List.getElem?_mem hj

lemma sampleAux_nodup (l : List Agent) (pick : Nat → Nat) (hl : l.Nodup) :
    ∀ (k i : Nat),
      (∀ j1 j2, i ≤ j1 → j1 < i + k → i ≤ j2 → j2 < i + k → pick j1 = pick j2 → j1 = j2) →
      (sampleAux l pick i k).Nodup := by
  intro k
  induction k with
  | zero => intro i _; simp [sampleAux]
  | succ k ih =>
      intro i hinj
      rw [sampleAux]
      cases hget : l[pick i]? with
      | none => exact ih (i + 1) (fun j1 j2 h1 h2 h3 h4 h5 => hinj j1 j2 (by omega) (by omega) (by omega) (by omega) h5)
      | some b =>
          rw [List.nodup_cons]
          constructor
          · intro hmem
            obtain ⟨j, hj1, hj2, hj3⟩ := mem_sampleAux l pick k (i + 1) b hmem
            obtain ⟨hpi, -⟩ := List.getElem?_eq_some.mp hget
            have heq : pick i = pick j :=
              List.getElem?_inj hpi hl (by rw [hget, hj3])
            have : i = j := hinj i j le_rfl (by omega) (by omega) (by omega) heq
            omega
          · exact ih (i + 1) (fun j1 j2 h1 h2 h3 h4 h5 => hinj j1 j2 (by omega) (by omega) (by omega) (by omega) h5)

/-! Lemmas about the summary transcript -/

lemma summaryTranscript_append_system (msgs : List Message) (m : Message)
    (h : m.agent_name = "System") :
    summaryTranscript (msgs ++ [m]) = summaryTranscript msgs := by
  simp [summaryTranscript, List.filter_append, h]

lemma summaryTranscript_append_other (msgs : List Message) (m : Message)
    (h : m.agent_name ≠ "System") :
    summaryTranscript (msgs ++ [m])
      = summaryTranscript msgs ++ [m.agent_name ++ ": " ++ m.content] := by
  simp [summaryTranscript, List.filter_append, h]

/-! String-length lemmas -/

lemma pyLen_append (a b : String) : pyLen (a ++ b) = pyLen a + pyLen b := by
  simp [pyLen]

lemma pyLen_pySlice (s : String) (k : Nat) : pyLen (pySlice s k) = min k (pyLen s) := by
  simp [pyLen, pySlice]

/-! Witness fixtures: a concrete session and environment -/

/-- A concrete environment in which every model call fails with "quota". -/
def envW : Env := { model := fun _ _ => Except.error "quota", clock := fun k => k }

/-- A concrete two-agent session built through the source operations. -/
def sysW : DiscussionSystem :=
  add_agent (add_agent (set_topic DiscussionSystem.init "T") "A" "r1" "p1") "B" "r2" "p2"

/-- A concrete agent for the response-generation witnesses. -/
def agentW : DiscussionAgent := { name := "A", role := "r1", personality := "p1" }

/-! The claims -/

/-- C1: starting from an empty conversation log, `conduct_discussion` with
`P` personas and `N` rounds leaves the log with exactly `1 + N*P` messages
(one System topic message plus one message per persona per round); the
environment `env` is universally quantified, so the count holds whatever
pattern of generation successes and failures occurs, failures being
recorded as error-text messages rather than dropped. -/
theorem claim1_log_count_after_discussion (sys : DiscussionSystem) (rounds : Nat)
    (env : Env) (n : Nat) (h : sys.messages = []) :
    ((conduct_discussion sys rounds env n).1).messages.length
      = 1 + rounds * sys.agents.length := by
  obtain ⟨appended, happ, hlen, -⟩ := (conduct_discussion_spec sys rounds env n).2
  rw [happ, List.length_append, h, hlen]
  simp

/-- Witness for C1 at a concrete 2-agent session, 3 rounds, all calls
failing. -/
theorem claim1_witness :
    sysW.messages = [] ∧
    ((conduct_discussion sysW 3 envW 0).1).messages.length
      = 1 + 3 * sysW.agents.length :=
  ⟨rfl, claim1_log_count_after_discussion sysW 3 envW 0 rfl⟩

/-- C2: for any completion order of the concurrent generation calls of a round
(any permutation `order` of the task positions), collecting the replies
through the gather mechanism appends exactly the same messages as
agent-list-order collection, and the `j`-th message appended in the round
is authored by the `j`-th persona of the session persona list —
independent of request latency. -/
theorem claim2_intra_round_order (sys : DiscussionSystem) (env : Env) (n : Nat)
    (order : List Nat) (h : order.Perm (List.range sys.agents.length)) :
    roundMessagesGathered sys env n order = roundMessages sys env n ∧
    ∀ j : Nat, ((roundMessagesGathered sys env n order)[j]?).map Message.agent_name
      = (sys.agents[j]?).map (fun a => a.name) := by
  have hts : (genResponses sys (format_conversation_history sys.messages) env n
      sys.agents).length = sys.agents.length := genResponses_length ..
  have heq : gatherResults
      (genResponses sys (format_conversation_history sys.messages) env n sys.agents)
      order
      = genResponses sys (format_conversation_history sys.messages) env n sys.agents :=
    gatherResults_perm _ _ (by rw [hts]; exact h)
  have hmain : roundMessagesGathered sys env n order = roundMessages sys env n := by
    rw [roundMessagesGathered, roundMessages, heq]
  exact ⟨hmain, fun j => by rw [hmain]; exact roundMessages_author sys env n j⟩

/-- Witness for C2 at a concrete 2-agent session with reversed completion
order. -/
theorem claim2_witness :
    ([1, 0] : List Nat).Perm (List.range sysW.agents.length) ∧
    (roundMessagesGathered sysW envW 4 [1, 0] = roundMessages sysW envW 4 ∧
     ∀ j : Nat, ((roundMessagesGathered sysW envW 4 [1, 0])[j]?).map Message.agent_name
       = (sysW.agents[j]?).map (fun a => a.name)) :=
  ⟨by decide, claim2_intra_round_order sysW envW 4 [1, 0] (by decide)⟩

/-- C3: within one round the generation call of every persona receives the same
context string, computed by `format_conversation_history` from the log as
it stands at round entry; that window is the last `min 10 |log|` messages
of the pre-round log (a suffix, newest last, formatted as
`"<author>: <content>"` lines), every window entry is a member of the
pre-round log, and the replies of the round itself are appended strictly after the
pre-round log — so the window cannot contain any reply produced in the
round itself. -/
theorem claim3_context_snapshot (sys : DiscussionSystem) (env : Env) (n : Nat) :
    (∀ j : Nat,
       (genResponses sys (format_conversation_history sys.messages) env n sys.agents)[j]?
         = (sys.agents[j]?).map
             (fun a => generate_response sys a
                (format_conversation_history sys.messages) (env.model (n + j)))) ∧
    format_conversation_history sys.messages
      = (if sys.messages.isEmpty then "No previous messages."
         else String.intercalate "\n"
           ((sys.messages.drop (sys.messages.length - 10)).map
             (fun msg => msg.agent_name ++ ": " ++ msg.content))) ∧
    (sys.messages.drop (sys.messages.length - 10)).length = min 10 sys.messages.length ∧
    sys.messages.take (sys.messages.length - 10)
        ++ sys.messages.drop (sys.messages.length - 10) = sys.messages ∧
    sys.messages.drop (sys.messages.length - 10) ⊆ sys.messages ∧
    (roundStep sys env n).1.messages = sys.messages ++ roundMessages sys env n := by
  refine ⟨genResponses_getElem? sys (format_conversation_history sys.messages) env
      sys.agents n, rfl, ?_, List.take_append_drop _ _, List.drop_subset _ _, rfl⟩
  rw [List.length_drop]
  omega

/-- C4: when the model call succeeds with raw text `r`, the recorded reply
is `r.strip()` if it fits the per-reply character budget, and otherwise the
hard cut of `r.strip()` to the budget with the `"..."` marker appended; in
both cases the length of the recorded reply is at most the budget plus the
length of the ellipsis marker. -/
theorem claim4_reply_truncation (sys : DiscussionSystem) (agent : DiscussionAgent)
    (hist : String) (call : String → Except String String) (r : String)
    (h : call (system_prompt sys agent hist) = Except.ok r) :
    (pyLen r.trim ≤ sys.agent_max_chars →
       generate_response sys agent hist call = r.trim) ∧
    (sys.agent_max_chars < pyLen r.trim →
       generate_response sys agent hist call
         = pySlice r.trim sys.agent_max_chars ++ "...") ∧
    pyLen (generate_response sys agent hist call)
      ≤ sys.agent_max_chars + pyLen "..." := by
  rw [generate_response, h]
  dsimp only
  by_cases hlt : pyLen r.trim > sys.agent_max_chars
  · rw [if_pos hlt]
    refine ⟨fun hle => absurd hlt (by omega), fun _ => rfl, ?_⟩
    rw [pyLen_append, pyLen_pySlice]
    have h3 : pyLen "..." = 3 := rfl
    omega
  · rw [if_neg hlt]
    exact ⟨fun _ => rfl, fun hgt => absurd hgt hlt, by omega⟩

/-- Witness for C4 at a concrete successful call whose stripped text fits
the default budget. -/
theorem claim4_witness :
    (fun _ : String => Except.ok (ε := String) "  hello  ")
        (system_prompt sysW agentW "hist") = Except.ok "  hello  " ∧
    ((pyLen ("  hello  " : String).trim ≤ sysW.agent_max_chars →
        generate_response sysW agentW "hist" (fun _ => Except.ok "  hello  ")
          = ("  hello  " : String).trim) ∧
     (sysW.agent_max_chars < pyLen ("  hello  " : String).trim →
        generate_response sysW agentW "hist" (fun _ => Except.ok "  hello  ")
          = pySlice ("  hello  " : String).trim sysW.agent_max_chars ++ "...") ∧
     pyLen (generate_response sysW agentW "hist" (fun _ => Except.ok "  hello  "))
       ≤ sysW.agent_max_chars + pyLen "...") :=
  ⟨rfl, claim4_reply_truncation sysW agentW "hist" (fun _ => Except.ok "  hello  ")
    "  hello  " rfl⟩

/-- C5: the per-persona generation operation is a total function — a failed
model invocation produces the ordinary return value
`[Error from <name>: <detail>]` rather than an exception — and every round
appends exactly one message per persona, in persona-list order, whatever
the call outcome of each persona is. -/
theorem claim5_error_as_value (sys : DiscussionSystem) (agent : DiscussionAgent)
    (hist : String) (call : String → Except String String) (e : String)
    (h : call (system_prompt sys agent hist) = Except.error e) :
    generate_response sys agent hist call
      = "[Error from " ++ agent.name ++ ": " ++ e ++ "]" ∧
    ∀ (sys2 : DiscussionSystem) (env : Env) (n : Nat),
      (roundMessages sys2 env n).length = sys2.agents.length ∧
      ∀ j : Nat, ((roundMessages sys2 env n)[j]?).map Message.agent_name
        = (sys2.agents[j]?).map (fun a => a.name) := by
  refine ⟨?_, fun sys2 env n =>
    ⟨roundMessages_length sys2 env n, fun j => roundMessages_author sys2 env n j⟩⟩
  rw [generate_response, h]

/-- Witness for C5 at a concrete failing call. -/
theorem claim5_witness :
    (fun _ : String => Except.error (α := String) "boom")
        (system_prompt sysW agentW "hist") = Except.error "boom" ∧
    (generate_response sysW agentW "hist" (fun _ => Except.error "boom")
       = "[Error from " ++ agentW.name ++ ": " ++ "boom" ++ "]" ∧
     ∀ (sys2 : DiscussionSystem) (env : Env) (n : Nat),
       (roundMessages sys2 env n).length = sys2.agents.length ∧
       ∀ j : Nat, ((roundMessages sys2 env n)[j]?).map Message.agent_name
         = (sys2.agents[j]?).map (fun a => a.name)) :=
  ⟨rfl, claim5_error_as_value sysW agentW "hist" (fun _ => Except.error "boom")
    "boom" rfl⟩

/-- C6: the summarizer transcript is built from exactly the
non-System-authored messages, formatted as `"<author>: <content>"` lines in
log order (System messages contribute no line, every other message
contributes exactly its own line, in order), and on success the summary
returned is the stripped model text with no truncation applied, whatever
the configured summary-length value is. -/
theorem claim6_summary_untruncated (sys : DiscussionSystem)
    (call : String → Except String String) (r : String)
    (h : call (summary_prompt sys) = Except.ok r) :
    (∀ (msgs : List Message) (m : Message), m.agent_name = "System" →
        summaryTranscript (msgs ++ [m]) = summaryTranscript msgs) ∧
    (∀ (msgs : List Message) (m : Message), m.agent_name ≠ "System" →
        summaryTranscript (msgs ++ [m])
          = summaryTranscript msgs ++ [m.agent_name ++ ": " ++ m.content]) ∧
    summarize_discussion sys call = r.trim ∧
    ∀ c : Nat, summarize_discussion { sys with summary_max_chars := c } call
        = summarize_discussion sys call := by
  refine ⟨summaryTranscript_append_system, summaryTranscript_append_other, ?_, fun c => rfl⟩
  rw [summarize_discussion, h]

/-- Witness for C6 at a concrete successful summarization call. -/
theorem claim6_witness :
    (fun _ : String => Except.ok (ε := String) " S ") (summary_prompt sysW)
      = Except.ok " S " ∧
    ((∀ (msgs : List Message) (m : Message), m.agent_name = "System" →
         summaryTranscript (msgs ++ [m]) = summaryTranscript msgs) ∧
     (∀ (msgs : List Message) (m : Message), m.agent_name ≠ "System" →
         summaryTranscript (msgs ++ [m])
           = summaryTranscript msgs ++ [m.agent_name ++ ": " ++ m.content]) ∧
     summarize_discussion sysW (fun _ => Except.ok " S ") = (" S " : String).trim ∧
     ∀ c : Nat, summarize_discussion { sysW with summary_max_chars := c }
           (fun _ => Except.ok " S ")
         = summarize_discussion sysW (fun _ => Except.ok " S ")) :=
  ⟨rfl, claim6_summary_untruncated sysW (fun _ => Except.ok " S ") " S " rfl⟩

/-- C7, counterexample: two sessions that differ only in the configured
summary-length value produce character-for-character identical
summarization instruction payloads (and identical summaries), so the
configured value is NOT embedded as advisory text in the payload — it is
simply never read during summarization. -/
theorem claim7_counterexample :
    (set_limits DiscussionSystem.init 200 7).summary_max_chars ≠
      (set_limits DiscussionSystem.init 200 9999).summary_max_chars ∧
    summary_prompt (set_limits DiscussionSystem.init 200 7)
      = summary_prompt (set_limits DiscussionSystem.init 200 9999) ∧
    summarize_discussion (set_limits DiscussionSystem.init 200 7)
        (fun _ => Except.ok "summary text")
      = summarize_discussion (set_limits DiscussionSystem.init 200 9999)
        (fun _ => Except.ok "summary text") :=
  ⟨by decide, rfl, rfl⟩

/-- C7, amended: `set_limits` stores the configured summary-length value,
but summarization never reads it — the instruction payload and the
summarization result are both independent of `summary_max_chars`, and no
postprocessing truncation is applied either. -/
theorem claim7_summary_limit_unused (sys : DiscussionSystem) (a c : Nat)
    (call : String → Except String String) :
    (set_limits sys a c).summary_max_chars = c ∧
    summary_prompt (set_limits sys a c) = summary_prompt sys ∧
    summarize_discussion (set_limits sys a c) call = summarize_discussion sys call :=
  ⟨rfl, rfl, rfl⟩

/-- C8: `select_random_agents_from_all` over a pool of size `M` returns the
entire pool (each entry exactly once, so exactly `M` personas) when
`M ≤ n`, and for `M > n` returns `n` personas drawn at distinct positions
of the pool: the result has length `n`, every member comes from the pool,
and a duplicate-free pool yields a duplicate-free selection. The
position choice `pick` of the sampler is in-range and injective, as `random.sample`
guarantees. -/
theorem claim8_random_sampling (m : AgentManager) (n : Nat) (pick : Nat → Nat)
    (hb : ∀ j, j < n → pick j < (get_all_agents m).length)
    (hinj : ∀ j1 j2, j1 < n → j2 < n → pick j1 = pick j2 → j1 = j2) :
    ((get_all_agents m).length ≤ n →
       select_random_agents_from_all m n pick = get_all_agents m) ∧
    (n < (get_all_agents m).length →
       (select_random_agents_from_all m n pick).length = n ∧
       (∀ a ∈ select_random_agents_from_all m n pick, a ∈ get_all_agents m) ∧
       ((get_all_agents m).Nodup →
          (select_random_agents_from_all m n pick).Nodup)) := by
  constructor
  · intro hle
    rw [select_random_agents_from_all]
    simp [hle]
  · intro hgt
    have hnle : ¬ (get_all_agents m).length ≤ n := by omega
    rw [select_random_agents_from_all]
    simp only [hnle, if_false]
    refine ⟨?_, ?_, ?_⟩
    · exact sampleAux_length _ _ n 0 (fun j hj1 hj2 => hb j (by omega))
    · exact sampleAux_subset _ _ n 0
    · intro hnodup
      exact sampleAux_nodup _ _ hnodup n 0
        (fun j1 j2 h1 h2 h3 h4 h5 => hinj j1 j2 (by omega) (by omega) h5)

/-- A concrete three-persona registry for the C8 witness. -/
def mW : AgentManager :=
  AgentManager.init "agents_config.json"
    (ReadResult.parsed
      { categories := some
          [("cat",
            [{ name := "A", role := "r1", personality := "p1" },
             { name := "B", role := "r2", personality := "p2" },
             { name := "C", role := "r3", personality := "p3" }])] })

/-- Witness for C8: request 2 of a 3-persona pool with the identity
position choice. -/
theorem claim8_witness :
    (∀ j, j < 2 → (fun j => j) j < (get_all_agents mW).length) ∧
    (((get_all_agents mW).length ≤ 2 →
        select_random_agents_from_all mW 2 (fun j => j) = get_all_agents mW) ∧
     (2 < (get_all_agents mW).length →
        (select_random_agents_from_all mW 2 (fun j => j)).length = 2 ∧
        (∀ a ∈ select_random_agents_from_all mW 2 (fun j => j), a ∈ get_all_agents mW) ∧
        ((get_all_agents mW).Nodup →
           (select_random_agents_from_all mW 2 (fun j => j)).Nodup))) :=
  ⟨fun j hj => Nat.lt_of_lt_of_le hj (by decide),
   claim8_random_sampling mW 2 (fun j => j)
     (fun j hj => Nat.lt_of_lt_of_le hj (by decide))
     (fun j1 j2 h1 h2 h5 => h5)⟩

/-- C9: the conversation log is append-only — `add_agent`, `set_topic` and
`set_limits` leave it untouched, a fresh instance starts with the empty
log, and `conduct_discussion` applied to any current state (not just an
empty log: it never clears on entry) extends the existing log by a block
whose first entry is a new System topic message and whose total size is
`1 + N*P` — so the `1 + N*P` count is relative to the log at call entry,
and a second call appends after the messages of the first call. -/
theorem claim9_append_only (sys : DiscussionSystem) (rounds : Nat) (env : Env)
    (n : Nat) (name role personality topic : String) (a c : Nat) :
    (add_agent sys name role personality).messages = sys.messages ∧
    (set_topic sys topic).messages = sys.messages ∧
    (set_limits sys a c).messages = sys.messages ∧
    DiscussionSystem.init.messages = [] ∧
    ∃ appended : List Message,
      ((conduct_discussion sys rounds env n).1).messages = sys.messages ++ appended ∧
      appended.length = 1 + rounds * sys.agents.length ∧
      appended.head? = some (topicMessage sys env n) :=
  ⟨rfl, rfl, rfl, rfl, (conduct_discussion_spec sys rounds env n).2⟩

/-- C10: when the backing configuration file of the registry is missing or is
not valid JSON, construction still succeeds with an empty category
mapping: `get_categories` returns the empty sequence and
`get_agents_by_category` returns the empty sequence for every category. -/
theorem claim10_registry_load_failure (cfg : String) (r : ReadResult)
    (h : r = ReadResult.missing ∨ ∃ e, r = ReadResult.invalid e) :
    get_categories (AgentManager.init cfg r) = [] ∧
    ∀ category, get_agents_by_category (AgentManager.init cfg r) category = [] := by
  have hdata : load_agents r = [] := by
    rcases h with h | ⟨e, h⟩ <;> subst h <;> rfl
  constructor
  · rw [get_categories]
    simp [AgentManager.init, hdata]
  · intro category
    rw [get_agents_by_category]
    simp [AgentManager.init, hdata, List.lookup]

/-- Witness for C10 with a missing configuration file. -/
theorem claim10_witness :
    (ReadResult.missing = ReadResult.missing ∨
       ∃ e, ReadResult.missing = ReadResult.invalid e) ∧
    (get_categories (AgentManager.init "agents_config.json" ReadResult.missing) = [] ∧
     ∀ category,
       get_agents_by_category (AgentManager.init "agents_config.json" ReadResult.missing)
           category = []) :=
  ⟨Or.inl rfl,
   claim10_registry_load_failure "agents_config.json" ReadResult.missing (Or.inl rfl)⟩

end DiscussionSim
